import Mathlib

/-!
Verification of the assertion/validation core of RESTinstance
(`src/REST/keywords.py`): JSON data model, path resolution
(`_find_by_field` / `_value_by_key` / `_schema_by_key`), exchange
recording (`_instantiate`), schema validation (`_validate_schema` /
`_assert_schema`) and the type-assertion keywords.

Python dicts are modelled as ordered association lists (Python 3.7+
dicts preserve insertion order); in-place mutation of nested dicts is
modelled by explicit rebuilding of the enclosing structure, which is
faithful because the walks in the source never create aliases other
than the parent-to-child links being rebuilt.
-/

/-- JSON values. Numbers are modelled as rationals, covering both the
integers appearing in bodies and the fractional `seconds` field of a
recorded response. -/
inductive Json where
  | null : Json
  | bool (b : Bool) : Json
  | num (q : Rat) : Json
  | str (s : String) : Json
  | arr (xs : List Json) : Json
  | obj (kvs : List (String × Json)) : Json

mutual

/-- Structural equality test for JSON values. -/
def Json.beq : Json → Json → Bool
  | .null, .null => true
  | .bool a, .bool b => a == b
  | .num a, .num b => a == b
  | .str a, .str b => a == b
  | .arr xs, .arr ys => Json.beqList xs ys
  | .obj xs, .obj ys => Json.beqObj xs ys
  | _, _ => false

/-- Equality test for JSON arrays. -/
def Json.beqList : List Json → List Json → Bool
  | [], [] => true
  | x :: xs, y :: ys => Json.beq x y && Json.beqList xs ys
  | _, _ => false

/-- Equality test for JSON object entry lists. -/
def Json.beqObj : List (String × Json) → List (String × Json) → Bool
  | [], [] => true
  | (k1, v1) :: xs, (k2, v2) :: ys =>
      k1 == k2 && Json.beq v1 v2 && Json.beqObj xs ys
  | _, _ => false

end

mutual

def Json.eq_of_beq : ∀ a b : Json, Json.beq a b = true → a = b
  | .null, .null, _ => rfl
  | .bool a, .bool b, h => by
      simp only [Json.beq, beq_iff_eq] at h; rw [h]
  | .num a, .num b, h => by
      simp only [Json.beq, beq_iff_eq] at h; rw [h]
  | .str a, .str b, h => by
      simp only [Json.beq, beq_iff_eq] at h; rw [h]
  | .arr xs, .arr ys, h => by
      rw [Json.eqList_of_beq xs ys (by simpa [Json.beq] using h)]
  | .obj xs, .obj ys, h => by
      rw [Json.eqObj_of_beq xs ys (by simpa [Json.beq] using h)]
  | .null, .bool _, h => by simp [Json.beq] at h
  | .null, .num _, h => by simp [Json.beq] at h
  | .null, .str _, h => by simp [Json.beq] at h
  | .null, .arr _, h => by simp [Json.beq] at h
  | .null, .obj _, h => by simp [Json.beq] at h
  | .bool _, .null, h => by simp [Json.beq] at h
  | .bool _, .num _, h => by simp [Json.beq] at h
  | .bool _, .str _, h => by simp [Json.beq] at h
  | .bool _, .arr _, h => by simp [Json.beq] at h
  | .bool _, .obj _, h => by simp [Json.beq] at h
  | .num _, .null, h => by simp [Json.beq] at h
  | .num _, .bool _, h => by simp [Json.beq] at h
  | .num _, .str _, h => by simp [Json.beq] at h
  | .num _, .arr _, h => by simp [Json.beq] at h
  | .num _, .obj _, h => by simp [Json.beq] at h
  | .str _, .null, h => by simp [Json.beq] at h
  | .str _, .bool _, h => by simp [Json.beq] at h
  | .str _, .num _, h => by simp [Json.beq] at h
  | .str _, .arr _, h => by simp [Json.beq] at h
  | .str _, .obj _, h => by simp [Json.beq] at h
  | .arr _, .null, h => by simp [Json.beq] at h
  | .arr _, .bool _, h => by simp [Json.beq] at h
  | .arr _, .num _, h => by simp [Json.beq] at h
  | .arr _, .str _, h => by simp [Json.beq] at h
  | .arr _, .obj _, h => by simp [Json.beq] at h
  | .obj _, .null, h => by simp [Json.beq] at h
  | .obj _, .bool _, h => by simp [Json.beq] at h
  | .obj _, .num _, h => by simp [Json.beq] at h
  | .obj _, .str _, h => by simp [Json.beq] at h
  | .obj _, .arr _, h => by simp [Json.beq] at h

def Json.eqList_of_beq : ∀ xs ys : List Json,
    Json.beqList xs ys = true → xs = ys
  | [], [], _ => rfl
  | [], _ :: _, h => by simp [Json.beqList] at h
  | _ :: _, [], h => by simp [Json.beqList] at h
  | x :: xs, y :: ys, h => by
      have h1 : Json.beq x y = true := by
        have := h; simp only [Json.beqList, Bool.and_eq_true] at this
        exact this.1
      have h2 : Json.beqList xs ys = true := by
        have := h; simp only [Json.beqList, Bool.and_eq_true] at this
        exact this.2
      rw [Json.eq_of_beq x y h1, Json.eqList_of_beq xs ys h2]

def Json.eqObj_of_beq : ∀ xs ys : List (String × Json),
    Json.beqObj xs ys = true → xs = ys
  | [], [], _ => rfl
  | [], _ :: _, h => by simp [Json.beqObj] at h
  | _ :: _, [], h => by simp [Json.beqObj] at h
  | (k1, v1) :: xs, (k2, v2) :: ys, h => by
      have h0 : k1 = k2 := by
        have := h; simp only [Json.beqObj, Bool.and_eq_true, beq_iff_eq] at this
        exact this.1.1
      have h1 : Json.beq v1 v2 = true := by
        have := h; simp only [Json.beqObj, Bool.and_eq_true] at this
        exact this.1.2
      have h2 : Json.beqObj xs ys = true := by
        have := h; simp only [Json.beqObj, Bool.and_eq_true] at this
        exact this.2
      rw [h0, Json.eq_of_beq v1 v2 h1, Json.eqObj_of_beq xs ys h2]

end

mutual

def Json.beq_refl : ∀ a : Json, Json.beq a a = true
  | .null => rfl
  | .bool a => by simp [Json.beq]
  | .num a => by simp [Json.beq]
  | .str a => by simp [Json.beq]
  | .arr xs => by simp [Json.beq, Json.beqList_refl xs]
  | .obj xs => by simp [Json.beq, Json.beqObj_refl xs]

def Json.beqList_refl : ∀ xs : List Json, Json.beqList xs xs = true
  | [] => rfl
  | x :: xs => by
      simp [Json.beqList, Json.beq_refl x, Json.beqList_refl xs]

def Json.beqObj_refl : ∀ xs : List (String × Json),
    Json.beqObj xs xs = true
  | [] => rfl
  | (k, v) :: xs => by
      simp [Json.beqObj, Json.beq_refl v, Json.beqObj_refl xs]

end

instance : DecidableEq Json := fun a b =>
  if h : Json.beq a b = true then .isTrue (Json.eq_of_beq a b h)
  else .isFalse (fun he => h (he ▸ Json.beq_refl a))

instance (ε α : Type) [DecidableEq ε] [DecidableEq α] :
    DecidableEq (Except ε α) := fun a b =>
  match a, b with
  | .ok x, .ok y =>
    if h : x = y then .isTrue (by rw [h])
    else .isFalse (fun he => h (Except.ok.inj he))
  | .ok _, .error _ => .isFalse (fun he => Except.noConfusion he)
  | .error _, .ok _ => .isFalse (fun he => Except.noConfusion he)
  | .error e, .error f =>
    if h : e = f then .isTrue (by rw [h])
    else .isFalse (fun he => h (Except.error.inj he))

/-- Ordered lookup in an association list (Python `dict.__getitem__`
for string keys; first match, and keys are unique in dicts built by
`setEntry`). -/
def lookupKey : List (String × Json) → String → Option Json
  | [], _ => none
  | (k, v) :: rest, key => if k = key then some v else lookupKey rest key

/-- Python `dict[key] = value`: replace in place when the key exists
(keeping its position), append at the end otherwise. -/
def setEntry : List (String × Json) → String → Json → List (String × Json)
  | [], key, v => [(key, v)]
  | (k, w) :: rest, key, v =>
      if k = key then (k, v) :: rest else (k, w) :: setEntry rest key v

/-- Member lookup on a JSON value; `none` on non-objects. -/
def getKey : Json → String → Option Json
  | .obj kvs, key => lookupKey kvs key
  | _, _ => none

/-- Member lookup defaulting to `null` (used only where the source has
already established that the key is present). -/
def getD (j : Json) (key : String) : Json :=
  (getKey j key).getD .null

/-- Python `key in dict`. `false` on non-objects (the walks in the
source only apply it to dicts). -/
def hasKey (j : Json) (key : String) : Bool :=
  (getKey j key).isSome

/-- Python `dict[key] = value` lifted to JSON values; the identity on
non-objects (which would be a TypeError in Python, a case never
reached by the source's walks). -/
def insertKey : Json → String → Json → Json
  | .obj kvs, key, v => .obj (setEntry kvs key v)
  | j, _, _ => j

/-- The entries of an object, `[]` for non-objects (Python iteration
`for field in schema` over a dict). -/
def objEntries : Json → List (String × Json)
  | .obj kvs => kvs
  | _ => []

/-- Python truthiness of a JSON value (`if self.spec:`,
`if schema['request']:`, `if schema['exampled']:`). -/
def truthy : Json → Bool
  | .null => false
  | .bool b => b
  | .num q => q != 0
  | .str s => s != ""
  | .arr xs => !xs.isEmpty
  | .obj kvs => !kvs.isEmpty


/-- Strip leading and trailing whitespace from a character list
(Python `int` ignores surrounding whitespace). -/
def trimChars (cs : List Char) : List Char :=
  ((cs.dropWhile Char.isWhitespace).reverse.dropWhile Char.isWhitespace).reverse

/-- Accumulate the value of a decimal digit string; `none` on the
first non-digit. -/
def digitsValAux : List Char → Nat → Option Nat
  | [], acc => some acc
  | c :: cs, acc =>
      if c.isDigit then digitsValAux cs (acc * 10 + (c.toNat - 48)) else none

/-- The value of a non-empty decimal digit string, `none` otherwise. -/
def digitsVal? : List Char → Option Nat
  | [] => none
  | cs => digitsValAux cs 0

/-- Parse an optional sign followed by decimal digits. -/
def pyIntChars : List Char → Option Int
  | [] => none
  | '+' :: cs => (digitsVal? cs).map (fun n => (n : Int))
  | '-' :: cs => (digitsVal? cs).map (fun n => -(n : Int))
  | cs => (digitsVal? cs).map (fun n => (n : Int))

/-- Python `int(key)` on the strings used as path keys: optional
surrounding whitespace, an optional sign, then decimal digits.
(Python additionally accepts underscore digit separators, which never
occur in field paths.) -/
def pyInt? (s : String) : Option Int :=
  pyIntChars (trimChars s.data)

/-- Exception classes raised by `_value_by_key`'s subscript
operations: `KeyError`, `IndexError`, `TypeError`. -/
inductive LookupErr where
  | keyErr : LookupErr
  | idxErr : LookupErr
  | typeErr : LookupErr
deriving DecidableEq, Repr

/-- Python sequence indexing `xs[i]` with negative indices counting
from the end; out of range raises `IndexError`. -/
def pyIndex (xs : List Json) (i : Int) : Except LookupErr Json :=
  let j := if i < 0 then i + xs.length else i
  if j < 0 then .error .idxErr
  else
    match xs[j.toNat]? with
    | some v => .ok v
    | none => .error .idxErr

/-- Python string indexing `s[i]`, returning a one-character string. -/
def pyStrIndex (s : String) (i : Int) : Except LookupErr Json :=
  let cs := s.data
  let j := if i < 0 then i + cs.length else i
  if j < 0 then .error .idxErr
  else
    match cs[j.toNat]? with
    | some c => .ok (.str (String.mk [c]))
    | none => .error .idxErr

/-- `_value_by_key` (keywords.py lines 420–424): try `json[int(key)]`;
on `ValueError` from `int`, fall back to `json[key]`. A dict indexed
with an integer key raises `KeyError` (JSON object keys are strings);
a sequence indexed with a non-numeric key, or a scalar subscripted at
all, raises `TypeError`, which `_find_by_field` does not catch. -/
def value_by_key (json : Json) (key : String) : Except LookupErr Json :=
  match pyInt? key with
  | some i =>
    match json with
    | .arr xs => pyIndex xs i
    | .str s => pyStrIndex s i
    | .obj _ => .error .keyErr
    | _ => .error .typeErr
  | none =>
    match json with
    | .obj kvs =>
      match lookupKey kvs key with
      | some v => .ok v
      | none => .error .keyErr
    | _ => .error .typeErr

/-- Tokenizer for `str.split()`: characters are gathered into the
accumulator until whitespace ends the token; runs of whitespace yield
no empty tokens. -/
def splitFieldAux : List Char → List Char → List String
  | [], acc => if acc.isEmpty then [] else [String.mk acc.reverse]
  | c :: cs, acc =>
    if c.isWhitespace then
      if acc.isEmpty then splitFieldAux cs []
      else String.mk acc.reverse :: splitFieldAux cs []
    else splitFieldAux cs (c :: acc)

/-- `field.split()` (keywords.py line 390): split on runs of
whitespace, dropping empty pieces. -/
def splitField (field : String) : List String :=
  splitFieldAux field.data []

/-- JSON type name of a value, as used by schema inference. A number
with denominator 1 is an `integer`, any other number a `number`. -/
def jsonTypeOf : Json → String
  | .null => "null"
  | .bool _ => "boolean"
  | .num q => if q.den = 1 then "integer" else "number"
  | .str _ => "string"
  | .arr _ => "array"
  | .obj _ => "object"

/-- The `type` names admitted by a schema node, for merging. -/
def typesOf (s : Json) : List String :=
  match getKey s "type" with
  | some (.str t) => [t]
  | some (.arr ts) =>
      ts.filterMap (fun t => match t with | .str u => some u | _ => none)
  | _ => []

/-- Modelled from the spec: structural generalization of two inferred
element schemas (spec section 4.1, delegated to the genson library
collaborator, which is external to this repository). Equal schemas
merge to themselves; differing child types become alternative allowed
types. -/
def mergeSchemas (a b : Json) : Json :=
  if a = b then a
  else
    .obj [("type", .arr
      ((typesOf a ++ (typesOf b).filter (fun t => !(typesOf a).contains t)).map Json.str))]

mutual

/-- Modelled from the spec: `SchemaInferrer.infer` (spec section 4.1;
the inference itself is delegated to the genson library collaborator,
external to this repository). A scalar infers to `{type: t}`, a
mapping to `{type: "object", properties: {...}}`, a sequence to
`{type: "array", items: <generalization of the element schemas>}`. -/
def infer : Json → Json
  | .obj kvs => .obj [("type", .str "object"), ("properties", .obj (inferProps kvs))]
  | .arr xs =>
    match inferList xs with
    | [] => .obj [("type", .str "array")]
    | s :: rest => .obj [("type", .str "array"), ("items", rest.foldl mergeSchemas s)]
  | v => .obj [("type", .str (jsonTypeOf v))]

/-- Schema inference mapped over object members. -/
def inferProps : List (String × Json) → List (String × Json)
  | [] => []
  | (k, v) :: rest => (k, infer v) :: inferProps rest

/-- Schema inference mapped over array elements. -/
def inferList : List Json → List Json
  | [] => []
  | v :: rest => infer v :: inferList rest

end

/-- `_new_schema` (keywords.py lines 377–378): infer a schema from an
observed value via the genson collaborator. -/
def new_schema (json_dict : Json) : Json := infer json_dict

/-- Whether a JSON value satisfies a Draft-04 `type` name. In Draft-04
an `integer` is a number with zero fractional part; booleans are not
integers. -/
def typeMatches (t : String) (v : Json) : Bool :=
  match t, v with
  | "null", .null => true
  | "boolean", .bool _ => true
  | "integer", .num q => q.den == 1
  | "number", .num _ => true
  | "string", .str _ => true
  | "array", .arr _ => true
  | "object", .obj _ => true
  | _, _ => false

/-- Modelled from the spec: Draft-04 validation (spec section 4.3; the
validation itself is delegated to the jsonschema library collaborator,
external to this repository), restricted to the keywords the claims
exercise: `type` (a name or a list of names) and `enum`. Other
keywords are treated as satisfied. -/
def draft4Check (schema reality : Json) : Bool :=
  (match getKey schema "type" with
   | some (.str t) => typeMatches t reality
   | some (.arr ts) =>
       ts.any (fun tj => match tj with | .str t => typeMatches t reality | _ => false)
   | _ => true)
  &&
  (match getKey schema "enum" with
   | some (.arr es) => es.any (fun e => e = reality)
   | _ => true)

/-- Errors raised during schema validation: the `RuntimeError` for an
unknown schema version, the `AssertionError` wrapping a jsonschema
`ValidationError`, and the `KeyError` escaping `_validate_schema` when
a schema key is absent from the validated dict. -/
inductive AErr where
  | unknownVersion (version : String) : AErr
  | schemaViolation : AErr
  | keyError (k : String) : AErr
deriving DecidableEq, Repr

/-- `_assert_schema` (keywords.py lines 365–375): read the session
schema version; for `draft04` build the Draft-04 validator and
validate `reality`, converting a `ValidationError` into an
`AssertionError`; for any other version raise `RuntimeError` before
any validation of the value. -/
def assert_schema (version : String) (schema reality : Json) : Except AErr Unit :=
  if version = "draft04" then
    if draft4Check schema reality then .ok () else .error .schemaViolation
  else .error (.unknownVersion version)

/-- The loop body of `_validate_schema`: iterate the schema mapping in
insertion order; `json_dict[field]` raises `KeyError` when the field is
absent, before `_assert_schema` is invoked for that field. -/
def validateSchemaGo (version : String) (json_dict : Json) :
    List (String × Json) → Except AErr Unit
  | [] => .ok ()
  | (k, sub) :: rest =>
    match getKey json_dict k with
    | none => .error (.keyError k)
    | some v =>
      match assert_schema version sub v with
      | .error e => .error e
      | .ok _ => validateSchemaGo version json_dict rest

/-- `_validate_schema` (keywords.py lines 361–363):
`for field in schema: self._assert_schema(schema[field], json_dict[field])`. -/
def validate_schema (version : String) (schema json_dict : Json) : Except AErr Unit :=
  validateSchemaGo version json_dict (objEntries schema)

/-- A `datetime.timedelta` as normalized by Python: `days`, `seconds`
(below 86400) and `microseconds` (below 1000000). -/
structure Timedelta where
  days : Nat
  seconds : Nat
  microseconds : Nat
deriving DecidableEq, Repr

/-- The value the source stores as the response's `seconds`
(keywords.py line 328): `response.elapsed.microseconds / 1000 / 1000`,
i.e. only the microsecond component of the elapsed timedelta. -/
def codeSeconds (t : Timedelta) : Rat :=
  (t.microseconds : Rat) / 1000 / 1000

/-- The total elapsed wall-clock time of a timedelta in seconds, as a
fractional value (what `elapsed.total_seconds()` returns). -/
def totalSeconds (t : Timedelta) : Rat :=
  (t.days : Rat) * 86400 + (t.seconds : Rat) + (t.microseconds : Rat) / 1000000

/-- The transport response handed to `_instantiate`: status code,
elapsed timedelta, the JSON-parsed body when `response.json()`
succeeds, the raw text otherwise, the headers, and the verdict of the
external API-spec validator (`validate_api_call`, modelled from the
spec as a collaborator-supplied boolean). -/
structure RawResponse where
  status : Int
  elapsed : Timedelta
  jsonBody : Option Json
  text : String
  headers : List (String × Json)
  specOk : Bool
deriving DecidableEq

/-- The Response dict built by `_instantiate` (keywords.py lines
322–331): JSON-parse the body, falling back to raw text; `seconds` is
`elapsed.microseconds / 1000 / 1000`. -/
def responseJson (raw : RawResponse) : Json :=
  .obj [("status", .num (raw.status : Rat)),
        ("seconds", .num (codeSeconds raw.elapsed)),
        ("body", raw.jsonBody.getD (.str raw.text)),
        ("headers", .obj raw.headers)]

/-- The session state owned by the keyword library: the live
SchemaStore `self.schema`, the instance history `self.instances` and
the expected spec `self.spec`. (The default request template and base
url play no role in the recorded claims and are omitted.) -/
structure Session where
  schema : Json
  instances : List Json
  spec : Option String
deriving DecidableEq

/-- The schema version of a store, `self.schema['version']` as
compared against `'draft04'`; a non-string or missing version can
never equal `draft04`. -/
def storeVersion (store : Json) : String :=
  match getKey store "version" with
  | some (.str v) => v
  | _ => ""

/-- Python truthiness of `self.spec` (`if self.spec:`). -/
def specTruthy : Option String → Bool
  | none => false
  | some s => s != ""

/-- The `spec` member stored into an instance. -/
def specJson : Option String → Json
  | none => .null
  | some s => .str s

/-- The `exampled` test used at keywords.py lines 343 and 393:
`'exampled' in schema and schema['exampled']`. -/
def exampledFlag (schema : Json) : Bool :=
  hasKey schema "exampled" && truthy (getD schema "exampled")

/-- Stamping one observed member value into
`schema['properties'][field]['example']`
(`_generate_schema_examples`, keywords.py line 385). -/
def stampPropertyExample (node : Json) (field : String) (v : Json) : Json :=
  insertKey node "properties"
    (insertKey (getD node "properties") field
      (insertKey (getD (getD node "properties") field) "example" v))

/-- `_generate_schema_examples` (keywords.py lines 380–387): for a
dict body, stamp each top-level member's observed value as the
`example` of the matching property of `schema['response']['body']`;
for a list body, stamp the whole list as that node's `example`; other
bodies are untouched. (The freshly inferred body schema always carries
a `properties` entry for every member of a dict body, so the KeyError
Python would raise on a missing property is unreachable.) -/
def generate_schema_examples (schema response : Json) : Json :=
  let body := getD response "body"
  match body with
  | .obj kvs =>
    let node := (kvs.foldl (fun n kv => stampPropertyExample n kv.1 kv.2)
      (getD (getD schema "response") "body"))
    insertKey schema "response" (insertKey (getD schema "response") "body" node)
  | .arr _ =>
    let node := insertKey (getD (getD schema "response") "body") "example" body
    insertKey schema "response" (insertKey (getD schema "response") "body" node)
  | _ => schema

/-- Errors escaping `_instantiate`: the `AssertionError` from the
API-spec check and the validation errors from `_validate_schema`. -/
inductive IErr where
  | specViolation : IErr
  | schemaErr (e : AErr) : IErr
deriving DecidableEq, Repr

/-- `_instantiate` (keywords.py lines 319–352): check the exchange
against the expected spec when one is set; normalize the response;
deep-copy the live SchemaStore (value semantics make the copy
implicit — the source never writes to `self.schema` here, only to the
copy); validate request/response against the pre-existing non-empty
schema sub-maps; overwrite the `body`/`query` fragments of the copy
from the freshly observed data; stamp examples when `exampled`;
append the finished instance. On an error the session is unchanged
(the append is the only session mutation and happens last). -/
def instantiate (sess : Session) (request : Json) (raw : RawResponse) :
    Except IErr (Session × Json) :=
  if specTruthy sess.spec && !raw.specOk then .error .specViolation
  else
    let response := responseJson raw
    let schema := sess.schema
    let version := storeVersion sess.schema
    match (if truthy (getD schema "request") then
             validate_schema version (getD schema "request") request
           else .ok ()) with
    | .error e => .error (.schemaErr e)
    | .ok _ =>
      match (if truthy (getD schema "response") then
               validate_schema version (getD schema "response") response
             else .ok ()) with
      | .error e => .error (.schemaErr e)
      | .ok _ =>
        let schema := if hasKey response "body" then
            insertKey schema "response"
              (insertKey (getD schema "response") "body" (new_schema (getD response "body")))
          else schema
        let schema := if hasKey request "body" then
            insertKey schema "request"
              (insertKey (getD schema "request") "body" (new_schema (getD request "body")))
          else schema
        let schema := if hasKey request "query" then
            insertKey schema "request"
              (insertKey (getD schema "request") "query" (new_schema (getD request "query")))
          else schema
        let schema := if exampledFlag schema then
            generate_schema_examples schema response
          else schema
        let inst : Json := .obj [("request", request), ("response", response),
                                 ("schema", schema), ("spec", specJson sess.spec)]
        .ok ({ sess with instances := sess.instances ++ [inst] }, inst)

/-- Which alias `_schema_by_key` holds when it writes and reads its
child node: the node itself, its `properties` sub-dict, or its `items`
sub-dict. Recording the location lets the functional model write the
recursively updated child back where Python's in-place mutation put
it. -/
inductive Loc where
  | direct : Loc
  | inProps : Loc
  | inItems : Loc
deriving DecidableEq, Repr

/-- `if add_example: schema[key]['example'] = value`
(keywords.py lines 434–435), applied to the container currently
aliased by the `schema` variable. -/
def stampExample (container : Json) (key : String) (value : Json) (ex : Bool) : Json :=
  if ex then insertKey container key (insertKey (getD container key) "example" value)
  else container

/-- `_schema_by_key` (keywords.py lines 426–436). When the key is a
direct member, return the member and touch nothing. Otherwise unwrap
through `properties` (or, failing that, `items`); synthesize a new
node from the resolved value if the key is still absent; stamp the
resolved value as `example` when session-wide example-embedding is on;
return the child found in the (possibly rewritten) container, together
with where the mutation happened. -/
def schema_by_key (s : Json) (key : String) (value : Json) (ex : Bool) :
    Json × Json × Loc :=
  if hasKey s key then (s, getD s key, .direct)
  else if hasKey s "properties" then
    let c := getD s "properties"
    let c := if hasKey c key then c else insertKey c key (new_schema value)
    let c := stampExample c key value ex
    (insertKey s "properties" c, getD c key, .inProps)
  else if hasKey s "items" then
    let c := getD s "items"
    let c := if hasKey c key then c else insertKey c key (new_schema value)
    let c := stampExample c key value ex
    (insertKey s "items" c, getD c key, .inItems)
  else
    let c := if hasKey s key then s else insertKey s key (new_schema value)
    let c := stampExample c key value ex
    (c, getD c key, .direct)

/-- Write an updated child node back to the location `_schema_by_key`
read it from (the functional image of Python's in-place mutation of
the aliased dict). -/
def putChild (s : Json) (loc : Loc) (key : String) (child : Json) : Json :=
  match loc with
  | .direct => insertKey s key child
  | .inProps => insertKey s "properties" (insertKey (getD s "properties") key child)
  | .inItems => insertKey s "items" (insertKey (getD s "items") key child)

/-- Path-resolution failures surfaced by `_find_by_field`: the
`AssertionError` for a missing member (`FieldNotFound`) or index
(`IndexNotFound`) carrying the offending key, the uncaught `TypeError`
from subscripting an unsuitable value, and the degenerate session with
no instance or a malformed one (`IndexError`/`KeyError` on
`self.instances[-1]['schema']`). -/
inductive FErr where
  | fieldNotFound (key : String) : FErr
  | indexNotFound (key : String) : FErr
  | typeError : FErr
  | badInstance : FErr
deriving DecidableEq, Repr

/-- The loop of `_find_by_field` (keywords.py lines 397–411): walk the
value and, when `also_schema` is set, the schema in lock-step. The
returned schema is the state of the root schema node after the walk's
mutations; on an error the mutations of the steps already taken are
kept, as they are in Python. -/
def findWalk (track ex : Bool) : List String → Json → Json →
    Except FErr Json × Json
  | [], value, schema => (.ok value, schema)
  | key :: rest, value, schema =>
    match value_by_key value key with
    | .error .keyErr => (.error (.fieldNotFound key), schema)
    | .error .idxErr => (.error (.indexNotFound key), schema)
    | .error .typeErr => (.error .typeError, schema)
    | .ok v2 =>
      if track then
        let t := schema_by_key schema key v2 ex
        let r := findWalk track ex rest v2 t.2.1
        (r.1, putChild t.1 t.2.2 key r.2)
      else
        findWalk track ex rest v2 schema

/-- `_find_by_field` (keywords.py lines 389–418) at the session level:
split the field, take the last instance, read the `exampled` flag from
its schema snapshot, walk value and schema from the instance and its
snapshot respectively, and store the mutated snapshot back into the
last instance (in Python the mutation is in place; prior instances are
never touched). The resolved reality is returned; the `keys` and the
final schema node of the returned dict are projections of the same
walk. -/
def find_by_field (sess : Session) (field : String) (also_schema : Bool) :
    Except FErr Json × Session :=
  match sess.instances.getLast? with
  | none => (.error .badInstance, sess)
  | some inst =>
    match getKey inst "schema" with
    | none => (.error .badInstance, sess)
    | some schema0 =>
      let ex := exampledFlag schema0
      let keys := splitField field
      let r := findWalk also_schema ex keys inst schema0
      let inst2 := insertKey inst "schema" r.2
      (r.1, { sess with instances := sess.instances.dropLast ++ [inst2] })

/-- The `missing` keyword (keywords.py lines 144–148): resolve the
field against the last instance and return the reality (the session
carries the schema mutations of the walk). -/
def missingKw (sess : Session) (field : String) : Except FErr Json × Session :=
  find_by_field sess field true

/-- The schema-node thread of the walk: which node the `schema`
variable of `_find_by_field` aliases after consuming the keys (the
node `found['schema']` that the typed assertion keywords merge their
validations into); `none` when resolution fails. -/
def foundSchemaGo (ex : Bool) : List String → Json → Json → Option Json
  | [], _, schema => some schema
  | key :: rest, value, schema =>
    match value_by_key value key with
    | .error _ => none
    | .ok v2 =>
      let t := schema_by_key schema key v2 ex
      foundSchemaGo ex rest v2 t.2.1

/-- The final schema node `found['schema']` of a resolution against
the last instance. -/
def foundSchema (sess : Session) (field : String) : Option Json :=
  match sess.instances.getLast? with
  | none => none
  | some inst =>
    match getKey inst "schema" with
    | none => none
    | some schema0 =>
      foundSchemaGo (exampledFlag schema0) (splitField field) inst schema0

/-- Modelled from the spec: the validation keyword table
(`schema_keywords.py`, imported by keywords.py line 17 but not under
src/). Spec section 6 describes it as
`{type: {schema_version: [allowed keyword names]}}` plus a `common`
entry applied to every type, and section 3 names `minimum`, `pattern`
and `minItems` as examples; the remaining names follow the standard
Draft-04 per-type validation keywords. The contents of the `common`
entry are not spelled out by the spec and are modelled as empty; the
claims depend only on the per-type names below being allowed and on
unknown names (`bogus`) being absent. Only `draft04` is present, so
any other version raises `KeyError` on lookup. -/
def SCHEMA_KEYWORDS (json_type version : String) : Option (List String) :=
  if version = "draft04" then
    some (match json_type with
      | "common" => []
      | "integer" =>
          ["multipleOf", "maximum", "exclusiveMaximum", "minimum", "exclusiveMinimum"]
      | "number" =>
          ["multipleOf", "maximum", "exclusiveMaximum", "minimum", "exclusiveMinimum"]
      | "string" => ["maxLength", "minLength", "pattern", "format"]
      | "object" =>
          ["maxProperties", "minProperties", "required", "additionalProperties",
           "patternProperties", "dependencies", "properties"]
      | "array" =>
          ["additionalItems", "items", "maxItems", "minItems", "uniqueItems"]
      | _ => [])
  else none

/-- The allowed-keyword list built at keywords.py lines 440–441:
`list(SCHEMA_KEYWORDS['common'][version])` extended with
`SCHEMA_KEYWORDS[json_type][version]`; `none` models the `KeyError`
for an unknown version. -/
def kwsFor (json_type version : String) : Option (List String) :=
  match SCHEMA_KEYWORDS "common" version, SCHEMA_KEYWORDS json_type version with
  | some c, some t => some (c ++ t)
  | _, _ => none

/-- Modelled from the spec: the `input` coercion keyword
(keywords.py lines 248–254 delegate to `_input_*` helpers that live in
`REST/__init__.py`, not under src/). It parses string arguments into
JSON values; validation-keyword arguments reach this model already as
parsed JSON values, so it is the identity here. -/
def inputJson (what : Json) : Json := what

/-- Errors raised while merging named validations:
the `RuntimeError` for an unrecognized validation keyword
(keywords.py lines 444–446) and the `KeyError` from looking an
unknown schema version up in `SCHEMA_KEYWORDS` (lines 440–441). -/
inductive VErr where
  | unknownKeyword (name : String) : VErr
  | versionKeyError (version : String) : VErr
deriving DecidableEq, Repr

/-- The `for validation in validations` loop of
`_set_type_validations` (keywords.py lines 442–448), over the ordered
named arguments. Each recognized name is written into the schema node
in place before the next is examined; the first unrecognized name
raises, leaving the writes made so far and leaving `type` unset; after
a clean pass `schema.update({"type": json_type})` runs. The returned
pair is the state of the schema node and the error, if any. -/
def svLoop (json_type : String) (kws : List String) (schema : Json) :
    List (String × Json) → Json × Option VErr
  | [] => (insertKey schema "type" (.str json_type), none)
  | (name, v) :: rest =>
    if kws.contains name then
      svLoop json_type kws (insertKey schema name (inputJson v)) rest
    else (schema, some (.unknownKeyword name))

/-- `_set_type_validations` (keywords.py lines 438–448). With no named
validations the keyword lists are never looked up (so an unknown
version raises nothing here) and only `type` is set; otherwise the
allowed list is built — `KeyError` for an unknown version — and the
loop runs. -/
def set_type_validations (json_type version : String) (schema : Json)
    (validations : List (String × Json)) : Json × Option VErr :=
  match validations with
  | [] => (insertKey schema "type" (.str json_type), none)
  | _ =>
    match kwsFor json_type version with
    | some kws => svLoop json_type kws schema validations
    | none => (schema, some (.versionKeyError version))

/-- Errors escaping a typed assertion keyword: a validation-keyword
merge error or an assertion error. -/
inductive KwErr where
  | fromValidations (e : VErr) : KwErr
  | fromAssert (e : AErr) : KwErr
deriving DecidableEq, Repr

/-- The shared body of the typed assertion keywords `integer`,
`number`, `string`, `object` and `array` (keywords.py lines 174–246)
after the field has been resolved: pop `skip`, merge the named
validations into the resolved schema node, install the positional
`enum` (whose per-type `_input_*` coercion lives outside src/ and is
applied by the caller of this model), and unless `skip` assert the
node against the reality. Returns the state of the schema node —
which in Python is the node inside the last instance's snapshot,
mutated in place — and the error, if any. -/
def typedKeywordCore (json_type version : String) (node reality : Json)
    (enum : List Json) (validations : List (String × Json)) (skip : Bool) :
    Json × Option KwErr :=
  let t := set_type_validations json_type version node validations
  match t.2 with
  | some e => (t.1, some (.fromValidations e))
  | none =>
    let s2 := if enum.isEmpty then t.1 else insertKey t.1 "enum" (.arr enum)
    if skip then (s2, none)
    else
      match assert_schema version s2 reality with
      | .ok _ => (s2, none)
      | .error e => (s2, some (.fromAssert e))

/-- The body of the `null` keyword (keywords.py lines 150–158) after
the field has been resolved: a fixed `{"type": "null"}` schema, the
`skip` flag popped from the named arguments — whose remaining entries
are never consulted — and an assertion unless skipped. -/
def nullKeywordCore (version : String) (reality : Json)
    (validations : List (String × Json)) (skip : Bool) : Option KwErr :=
  let _unused := validations
  let schema : Json := .obj [("type", .str "null")]
  if skip then none
  else
    match assert_schema version schema reality with
    | .ok _ => none
    | .error e => some (.fromAssert e)

/-- The body of the `boolean` keyword (keywords.py lines 160–171)
after the field has been resolved: a `{"type": "boolean"}` schema,
optionally restricted by a single-element `enum`; the named arguments
other than `skip` are never consulted. -/
def booleanKeywordCore (version : String) (reality : Json)
    (value : Option Bool) (validations : List (String × Json)) (skip : Bool) :
    Option KwErr :=
  let _unused := validations
  let schema : Json :=
    match value with
    | none => .obj [("type", .str "boolean")]
    | some b => .obj [("type", .str "boolean"), ("enum", .arr [.bool b])]
  if skip then none
  else
    match assert_schema version schema reality with
    | .ok _ => none
    | .error e => some (.fromAssert e)

/-- The instance produced by a successful `_instantiate` call (the
value appended to `self.instances` and returned). -/
def recordedInstance (sess : Session) (req : Json) (raw : RawResponse) : Json :=
  (((instantiate sess req raw).toOption).getD (sess, .null)).2

/-- A fresh session store: empty `request`/`response` schema maps,
`draft04`, example-embedding off. -/
def cexStore : Json := .obj [("request", .obj []), ("response", .obj []),
  ("version", .str "draft04"), ("exampled", .bool false)]

/-- A fresh session: the store above, no instances, no expected spec. -/
def cexSession : Session := ⟨cexStore, [], none⟩

/-- A minimal GET request dict (no `body`, no `query`). -/
def cexRequest : Json := .obj [("method", .str "GET"), ("endpoint", .str "/x")]

/-- A 200 transport response with the given JSON body. -/
def cexRaw (b : Json) : RawResponse := ⟨200, ⟨0, 0, 1000⟩, some b, "", [], true⟩

/-- First response body `{"a": 1}`. -/
def cexBody1 : Json := .obj [("a", .num 1)]

/-- Second response body `{"a": 1, "b": 2}` — a different shape. -/
def cexBody2 : Json := .obj [("a", .num 1), ("b", .num 2)]

/-- The session and instance after recording the first exchange. -/
def cexStep1 : Session × Json :=
  ((instantiate cexSession cexRequest (cexRaw cexBody1)).toOption).getD
    (cexSession, .null)

/-- Session after the first call. -/
def cexSess1 : Session := cexStep1.1

/-- The first appended instance. -/
def cexInst1 : Json := cexStep1.2

/-- The session and instance after recording the second exchange. -/
def cexStep2 : Session × Json :=
  ((instantiate cexSess1 cexRequest (cexRaw cexBody2)).toOption).getD
    (cexSess1, .null)

/-- Session after the second call. -/
def cexSess2 : Session := cexStep2.1

/-- The second appended instance. -/
def cexInst2 : Json := cexStep2.2

/-- Session after recording one exchange whose response body is the
array `[10, 20, 30]` (its snapshot's body schema is
`{type: "array", items: {type: "integer"}}`). -/
def cexSessArr : Session :=
  (((instantiate cexSession cexRequest
      (cexRaw (.arr [.num 10, .num 20, .num 30]))).toOption).getD
    (cexSession, .null)).1

/-- The single (hence last) instance of that session. -/
def cexInstArr : Json := (cexSessArr.instances.getLast?).getD .null

/-- The result of the `missing` keyword resolving `response body 0`
against that session. -/
def cexFound : Except FErr Json × Session := missingKw cexSessArr "response body 0"

/-- The session after that resolution. -/
def cexSessArr2 : Session := cexFound.2

/-- The last instance after that resolution. -/
def cexInstArr2 : Json := (cexSessArr2.instances.getLast?).getD .null

section DictLemmas

theorem lookup_set_self (kvs : List (String × Json)) (k : String) (v : Json) :
    lookupKey (setEntry kvs k v) k = some v := by
  induction kvs with
  | nil => simp [setEntry, lookupKey]
  | cons hd tl ih =>
    obtain ⟨k0, v0⟩ := hd
    by_cases h : k0 = k
    · simp [setEntry, lookupKey, h]
    · simp [setEntry, lookupKey, h, ih]

theorem lookup_set_ne (kvs : List (String × Json)) (k k2 : String) (v : Json)
    (h : k2 ≠ k) : lookupKey (setEntry kvs k v) k2 = lookupKey kvs k2 := by
  induction kvs with
  | nil => simp [setEntry, lookupKey, Ne.symm h]
  | cons hd tl ih =>
    obtain ⟨k0, v0⟩ := hd
    by_cases hk : k0 = k
    · subst hk
      simp [setEntry, lookupKey, Ne.symm h]
    · by_cases hk2 : k0 = k2
      · subst hk2
        simp [setEntry, lookupKey, h]
      · simp [setEntry, lookupKey, hk, hk2, ih]

theorem set_lookup_self (kvs : List (String × Json)) (k : String) (v : Json)
    (h : lookupKey kvs k = some v) : setEntry kvs k v = kvs := by
  induction kvs with
  | nil => simp [lookupKey] at h
  | cons hd tl ih =>
    obtain ⟨k0, v0⟩ := hd
    by_cases hk : k0 = k
    · simp [lookupKey, hk] at h
      simp [setEntry, hk, h]
    · simp [lookupKey, hk] at h
      simp [setEntry, hk, ih h]

theorem set_set (kvs : List (String × Json)) (k : String) (a b : Json) :
    setEntry (setEntry kvs k a) k b = setEntry kvs k b := by
  induction kvs with
  | nil => simp [setEntry]
  | cons hd tl ih =>
    obtain ⟨k0, v0⟩ := hd
    by_cases hk : k0 = k
    · simp [setEntry, hk]
    · simp [setEntry, hk, ih]

theorem getKey_insert_self (kvs : List (String × Json)) (k : String) (v : Json) :
    getKey (insertKey (.obj kvs) k v) k = some v := by
  simp [insertKey, getKey, lookup_set_self]

theorem getKey_insert_ne (j : Json) (k k2 : String) (v : Json) (h : k2 ≠ k) :
    getKey (insertKey j k v) k2 = getKey j k2 := by
  cases j <;> simp [insertKey, getKey]
  exact lookup_set_ne _ _ _ _ h

theorem insert_getKey_self (j : Json) (k : String) (v : Json)
    (h : getKey j k = some v) : insertKey j k v = j := by
  cases j <;> simp [getKey] at h
  simp [insertKey, set_lookup_self _ _ _ h]

theorem insert_insert (j : Json) (k : String) (a b : Json) :
    insertKey (insertKey j k a) k b = insertKey j k b := by
  cases j <;> simp [insertKey, set_set]

theorem hasKey_insert_self (kvs : List (String × Json)) (k : String) (v : Json) :
    hasKey (insertKey (.obj kvs) k v) k = true := by
  simp [hasKey, getKey_insert_self]

theorem hasKey_insert_ne (j : Json) (k k2 : String) (v : Json) (h : k2 ≠ k) :
    hasKey (insertKey j k v) k2 = hasKey j k2 := by
  simp [hasKey, getKey_insert_ne _ _ _ _ h]

theorem getD_insert_self (kvs : List (String × Json)) (k : String) (v : Json) :
    getD (insertKey (.obj kvs) k v) k = v := by
  simp [getD, getKey_insert_self]

theorem hasKey_obj (j : Json) (k : String) (h : hasKey j k = true) :
    ∃ kvs, j = .obj kvs := by
  cases j <;> simp [hasKey, getKey] at h <;> exact ⟨_, rfl⟩

theorem getKey_some_obj (j : Json) (k : String) (v : Json)
    (h : getKey j k = some v) : ∃ kvs, j = .obj kvs := by
  cases j <;> simp [getKey] at h <;> exact ⟨_, rfl⟩

end DictLemmas

section SupportLemmas

theorem getKey_foldl_insert_ne (k : String) (x : Json → Json)
    (pre : List (String × Json)) (node : Json)
    (h : k ∉ pre.map Prod.fst) :
    getKey (pre.foldl (fun n p => insertKey n p.1 (x p.2)) node) k = getKey node k := by
  induction pre generalizing node with
  | nil => rfl
  | cons p ps ih =>
    simp only [List.map_cons, List.mem_cons] at h
    push_neg at h
    simp only [List.foldl_cons]
    rw [ih _ h.2, getKey_insert_ne _ _ _ _ h.1]

theorem new_schema_obj (v : Json) : ∃ kvs, new_schema v = .obj kvs := by
  cases v with
  | arr xs =>
    simp only [new_schema, infer]
    cases inferList xs with
    | nil => exact ⟨_, rfl⟩
    | cons s rest => exact ⟨_, rfl⟩
  | null => exact ⟨_, rfl⟩
  | bool b => exact ⟨_, rfl⟩
  | num q => exact ⟨_, rfl⟩
  | str s => exact ⟨_, rfl⟩
  | obj kvs => exact ⟨_, rfl⟩

theorem svLoop_append_bad (json_type : String) (kws : List String)
    (bad : String) (w : Json) (rest : List (String × Json)) :
    ∀ (pre : List (String × Json)) (node : Json),
    (∀ p ∈ pre, kws.contains p.1 = true) → kws.contains bad = false →
    svLoop json_type kws node (pre ++ (bad, w) :: rest)
      = (pre.foldl (fun n p => insertKey n p.1 (inputJson p.2)) node,
         some (.unknownKeyword bad))
  | [], node, _, hbad => by
    show svLoop json_type kws node ((bad, w) :: rest) = _
    unfold svLoop
    rw [hbad]
    simp
  | (name, v) :: ps, node, hpre, hbad => by
    have hp : kws.contains name = true := hpre (name, v) (by simp)
    show svLoop json_type kws node ((name, v) :: (ps ++ (bad, w) :: rest)) = _
    unfold svLoop
    rw [hp]
    simp only [if_true, List.foldl_cons]
    exact svLoop_append_bad json_type kws bad w rest ps _
      (fun q hq => hpre q (by simp [hq])) hbad

theorem schema_by_key_direct (s : Json) (key : String) (v : Json) (ex : Bool)
    (h : hasKey s key = true) :
    schema_by_key s key v ex = (s, getD s key, .direct) := by
  unfold schema_by_key
  rw [if_pos h]

theorem schema_by_key_unwrapProps (s : Json) (key : String) (v : Json) (ex : Bool)
    (h : hasKey s key = false) (hP : hasKey s "properties" = true) :
    schema_by_key s key v ex =
      (insertKey s "properties"
         (stampExample
           (if hasKey (getD s "properties") key then getD s "properties"
            else insertKey (getD s "properties") key (new_schema v)) key v ex),
       getD (stampExample
           (if hasKey (getD s "properties") key then getD s "properties"
            else insertKey (getD s "properties") key (new_schema v)) key v ex) key,
       .inProps) := by
  unfold schema_by_key
  rw [if_neg (by simp [h]), if_pos hP]

theorem schema_by_key_unwrapItems (s : Json) (key : String) (v : Json) (ex : Bool)
    (h : hasKey s key = false) (hP : hasKey s "properties" = false)
    (hI : hasKey s "items" = true) :
    schema_by_key s key v ex =
      (insertKey s "items"
         (stampExample
           (if hasKey (getD s "items") key then getD s "items"
            else insertKey (getD s "items") key (new_schema v)) key v ex),
       getD (stampExample
           (if hasKey (getD s "items") key then getD s "items"
            else insertKey (getD s "items") key (new_schema v)) key v ex) key,
       .inItems) := by
  unfold schema_by_key
  rw [if_neg (by simp [h]), if_neg (by simp [hP]), if_pos hI]

theorem schema_by_key_bare (s : Json) (key : String) (v : Json) (ex : Bool)
    (h : hasKey s key = false) (hP : hasKey s "properties" = false)
    (hI : hasKey s "items" = false) :
    schema_by_key s key v ex =
      (stampExample (insertKey s key (new_schema v)) key v ex,
       getD (stampExample (insertKey s key (new_schema v)) key v ex) key,
       .direct) := by
  unfold schema_by_key
  rw [if_neg (by simp [h]), if_neg (by simp [hP]), if_neg (by simp [hI]),
    if_neg (by simp [h])]

end SupportLemmas

/-- C3: the source stores `response.elapsed.microseconds / 1000 / 1000`
as `seconds` (keywords.py line 328) — only the microsecond component of
the elapsed timedelta — so an exchange whose transport-reported elapsed
time is 2.5 seconds (2 s plus 500000 µs) is recorded with
`seconds = 0.5`, not the total elapsed wall-clock time 2.5 required by
the claim. -/
theorem C3_seconds_microseconds_only :
    getKey (responseJson ⟨200, ⟨0, 2, 500000⟩, some .null, "", [], true⟩) "seconds"
      = some (.num (codeSeconds ⟨0, 2, 500000⟩))
    ∧ codeSeconds ⟨0, 2, 500000⟩ = (1 : Rat) / 2
    ∧ totalSeconds ⟨0, 2, 500000⟩ = (5 : Rat) / 2
    ∧ codeSeconds ⟨0, 2, 500000⟩ ≠ totalSeconds ⟨0, 2, 500000⟩ := by
  refine ⟨?_, by norm_num [codeSeconds], by norm_num [totalSeconds], ?_⟩
  · simp [responseJson, getKey, lookupKey]
  · norm_num [codeSeconds, totalSeconds]

/-- C4: `_find_by_field` interprets each key in order: a key parsing as
an integer subscripts the current value as a sequence (`IndexError` is
surfaced as IndexNotFound when out of range), any other key subscripts
it as a mapping member (`KeyError` surfaced as FieldNotFound when
absent); against `{"a": {"b": 1}}` the path `a b` resolves to `1` and
`a c` raises FieldNotFound; against `[10, 20, 30]` the path `1`
resolves to `20` and `5` raises IndexNotFound. -/
theorem C4_path_resolution :
    (∀ (kvs : List (String × Json)) (key : String), pyInt? key = none →
       value_by_key (.obj kvs) key
         = (match lookupKey kvs key with
            | some v => .ok v
            | none => .error .keyErr))
    ∧ (∀ (xs : List Json) (key : String) (i : Int), pyInt? key = some i →
        value_by_key (.arr xs) key = pyIndex xs i)
    ∧ (∀ (track ex : Bool) (key : String) (rest : List String) (v s : Json),
        value_by_key v key = .error .keyErr →
        (findWalk track ex (key :: rest) v s).1 = .error (.fieldNotFound key))
    ∧ (∀ (track ex : Bool) (key : String) (rest : List String) (v s : Json),
        value_by_key v key = .error .idxErr →
        (findWalk track ex (key :: rest) v s).1 = .error (.indexNotFound key))
    ∧ (findWalk false false (splitField "a b")
        (.obj [("a", .obj [("b", .num 1)])]) .null).1 = .ok (.num 1)
    ∧ (findWalk false false (splitField "a c")
        (.obj [("a", .obj [("b", .num 1)])]) .null).1 = .error (.fieldNotFound "c")
    ∧ (findWalk false false (splitField "1")
        (.arr [.num 10, .num 20, .num 30]) .null).1 = .ok (.num 20)
    ∧ (findWalk false false (splitField "5")
        (.arr [.num 10, .num 20, .num 30]) .null).1 = .error (.indexNotFound "5") := by
  refine ⟨?_, ?_, ?_, ?_, by decide, by decide, by decide, by decide⟩
  · intro kvs key h
    simp [value_by_key, h]
  · intro xs key i h
    simp [value_by_key, h]
  · intro track ex key rest v s h
    simp [findWalk, h]
  · intro track ex key rest v s h
    simp [findWalk, h]

/-- Witness for C4 at concrete inputs: a non-numeric key resolves as a
mapping member and a numeric key as a sequence index. -/
theorem C4_path_resolution_witness :
    value_by_key (.obj [("a", .num 1)]) "a"
      = (match lookupKey [("a", .num 1)] "a" with
         | some v => Except.ok v
         | none => Except.error LookupErr.keyErr)
    ∧ value_by_key (.arr [.num 10, .num 20, .num 30]) "1"
        = pyIndex [.num 10, .num 20, .num 30] 1 := by
  exact ⟨C4_path_resolution.1 [("a", .num 1)] "a" (by decide),
         C4_path_resolution.2.1 [.num 10, .num 20, .num 30] "1" 1 (by decide)⟩

/-- C7 counterexample: the unknown-version error is not reported
immediately but only when a value is validated — with the unknown
version `draft05` configured, a complete `null(field, skip=true)`
keyword call performs no validation and reports nothing, while
`_assert_schema` raises the unknown-version `RuntimeError` only when
invoked on a value. -/
theorem C7_version_error_deferred :
    nullKeywordCore "draft05" (.num 1) [] true = none
    ∧ assert_schema "draft05" (.obj [("type", .str "null")]) .null
        = .error (.unknownVersion "draft05") := ⟨rfl, rfl⟩

/-- C7 amended: an unsupported schema version is reported by
`_assert_schema` at assertion time — the version gate runs before the
value is checked against the schema, so the error is independent of
both the schema and the reality — but it is not detected at
configuration time, and calls that skip validation never report it. -/
theorem C7_version_checked_at_assertion (version : String)
    (schema reality : Json) (h : version ≠ "draft04") :
    assert_schema version schema reality = .error (.unknownVersion version) := by
  simp [assert_schema, h]

/-- Witness for C7 amended at a concrete unknown version. -/
theorem C7_version_checked_at_assertion_witness :
    assert_schema "draft05" (.obj []) (.num 404)
      = .error (.unknownVersion "draft05") :=
  C7_version_checked_at_assertion "draft05" (.obj []) (.num 404) (by decide)

/-- C8 counterexample: when the key is already a direct member of the
current schema node, `_schema_by_key` returns it untouched even with
example-embedding enabled — no `example` is stamped, contradicting
"regardless of whether that schema node was pre-existing or freshly
synthesized (in particular, also when the key is already a direct
member)". -/
theorem C8_direct_member_not_stamped :
    schema_by_key (.obj [("a", .obj [("type", .str "integer")])]) "a" (.num 1) true
      = (.obj [("a", .obj [("type", .str "integer")])],
         .obj [("type", .str "integer")], .direct)
    ∧ getKey (schema_by_key (.obj [("a", .obj [("type", .str "integer")])])
        "a" (.num 1) true).2.1 "example" = none := by
  exact ⟨by decide, by decide⟩

/-- C8 amended: with example-embedding enabled, the resolved value is
stamped onto the reached schema node's `example` exactly when the key
is not a direct member of the current schema node — whether the child
found after unwrapping through `properties` pre-existed or was freshly
synthesized, and also when it is synthesized directly — while a key
that is a direct member is returned with the node untouched and
nothing stamped. -/
theorem C8_example_stamping :
    (∀ (s : Json) (k : String) (v : Json) (ex : Bool), hasKey s k = true →
       schema_by_key s k v ex = (s, getD s k, .direct))
    ∧ (∀ (s P : Json) (k : String) (v : Json) (ckvs : List (String × Json)),
        hasKey s k = false → getKey s "properties" = some P →
        getKey P k = some (.obj ckvs) →
        getKey (schema_by_key s k v true).2.1 "example" = some v)
    ∧ (∀ (s : Json) (P : List (String × Json)) (k : String) (v : Json),
        hasKey s k = false → getKey s "properties" = some (.obj P) →
        lookupKey P k = none →
        getKey (schema_by_key s k v true).2.1 "example" = some v)
    ∧ (∀ (kvs : List (String × Json)) (k : String) (v : Json),
        hasKey (.obj kvs) k = false → hasKey (.obj kvs) "properties" = false →
        hasKey (.obj kvs) "items" = false →
        getKey (schema_by_key (.obj kvs) k v true).2.1 "example" = some v)
    ∧ (∀ (s P : Json) (k : String) (v : Json) (ckvs : List (String × Json)),
        hasKey s k = false → hasKey s "properties" = false →
        getKey s "items" = some P →
        getKey P k = some (.obj ckvs) →
        getKey (schema_by_key s k v true).2.1 "example" = some v)
    ∧ (∀ (s : Json) (P : List (String × Json)) (k : String) (v : Json),
        hasKey s k = false → hasKey s "properties" = false →
        getKey s "items" = some (.obj P) →
        lookupKey P k = none →
        getKey (schema_by_key s k v true).2.1 "example" = some v) := by
  refine ⟨?_, ?_, ?_, ?_, ?_, ?_⟩
  · intro s k v ex h
    simp [schema_by_key, h]
  · intro s P k v ckvs h hp hc
    have hP : hasKey s "properties" = true := by simp [hasKey, hp]
    obtain ⟨pk, rfl⟩ := getKey_some_obj P k _ hc
    have hgd : getD s "properties" = Json.obj pk := by simp [getD, hp]
    have hPk : hasKey (Json.obj pk) k = true := by simp [hasKey, hc]
    rw [schema_by_key_unwrapProps s k v true h hP]
    simp only [hgd, hPk, if_true, stampExample]
    rw [getD_insert_self]
    have hgd2 : getD (Json.obj pk) k = Json.obj ckvs := by simp [getD, hc]
    rw [hgd2]
    exact getKey_insert_self ckvs "example" v
  · intro s P k v h hp hPk
    have hP : hasKey s "properties" = true := by simp [hasKey, hp]
    have hgd : getD s "properties" = Json.obj P := by simp [getD, hp]
    have hPk2 : hasKey (Json.obj P) k = false := by simp [hasKey, getKey, hPk]
    obtain ⟨ns, hns⟩ := new_schema_obj v
    rw [schema_by_key_unwrapProps s k v true h hP]
    simp only [hgd, hPk2, Bool.false_eq_true, if_false, stampExample, if_true]
    rw [show insertKey (Json.obj P) k (new_schema v)
          = Json.obj (setEntry P k (new_schema v)) from rfl]
    rw [getD_insert_self]
    rw [show getD (Json.obj (setEntry P k (new_schema v))) k = new_schema v by
      simp [getD, getKey, lookup_set_self]]
    rw [hns]
    exact getKey_insert_self ns "example" v
  · intro kvs k v h hp hi
    obtain ⟨ns, hns⟩ := new_schema_obj v
    rw [schema_by_key_bare (.obj kvs) k v true h hp hi]
    simp only [stampExample, if_true]
    rw [show insertKey (Json.obj kvs) k (new_schema v)
          = Json.obj (setEntry kvs k (new_schema v)) from rfl]
    rw [getD_insert_self]
    rw [show getD (Json.obj (setEntry kvs k (new_schema v))) k = new_schema v by
      simp [getD, getKey, lookup_set_self]]
    rw [hns]
    exact getKey_insert_self ns "example" v
  · intro s P k v ckvs h hpf hi hc
    have hI : hasKey s "items" = true := by simp [hasKey, hi]
    obtain ⟨pk, rfl⟩ := getKey_some_obj P k _ hc
    have hgd : getD s "items" = Json.obj pk := by simp [getD, hi]
    have hPk : hasKey (Json.obj pk) k = true := by simp [hasKey, hc]
    rw [schema_by_key_unwrapItems s k v true h hpf hI]
    simp only [hgd, hPk, if_true, stampExample]
    rw [getD_insert_self]
    have hgd2 : getD (Json.obj pk) k = Json.obj ckvs := by simp [getD, hc]
    rw [hgd2]
    exact getKey_insert_self ckvs "example" v
  · intro s P k v h hpf hi hPk
    have hI : hasKey s "items" = true := by simp [hasKey, hi]
    have hgd : getD s "items" = Json.obj P := by simp [getD, hi]
    have hPk2 : hasKey (Json.obj P) k = false := by simp [hasKey, getKey, hPk]
    obtain ⟨ns, hns⟩ := new_schema_obj v
    rw [schema_by_key_unwrapItems s k v true h hpf hI]
    simp only [hgd, hPk2, Bool.false_eq_true, if_false, stampExample, if_true]
    rw [show insertKey (Json.obj P) k (new_schema v)
          = Json.obj (setEntry P k (new_schema v)) from rfl]
    rw [getD_insert_self]
    rw [show getD (Json.obj (setEntry P k (new_schema v))) k = new_schema v by
      simp [getD, getKey, lookup_set_self]]
    rw [hns]
    exact getKey_insert_self ns "example" v

/-- Witness for C8 amended: a direct member is returned untouched; a
key absent from the node but present under `properties` gets the
resolved value stamped as its `example`; and a key synthesized after
unwrapping through `items` (an array index resolved against an
array-typed body schema) is stamped as well. -/
theorem C8_example_stamping_witness :
    schema_by_key (.obj [("a", .null)]) "a" (.num 1) true
      = (.obj [("a", .null)], getD (.obj [("a", .null)]) "a", .direct)
    ∧ getKey (schema_by_key
        (.obj [("properties", .obj [("a", .obj [("type", .str "integer")])])])
        "a" (.num 1) true).2.1 "example" = some (.num 1)
    ∧ getKey (schema_by_key
        (.obj [("type", .str "array"), ("items", .obj [("type", .str "integer")])])
        "0" (.num 10) true).2.1 "example" = some (.num 10) :=
  ⟨C8_example_stamping.1 (.obj [("a", .null)]) "a" (.num 1) true (by decide),
   C8_example_stamping.2.1 (.obj [("properties", .obj [("a", .obj [("type", .str "integer")])])])
     (.obj [("a", .obj [("type", .str "integer")])]) "a" (.num 1)
     [("type", .str "integer")] (by decide) (by decide) (by decide),
   C8_example_stamping.2.2.2.2.2
     (.obj [("type", .str "array"), ("items", .obj [("type", .str "integer")])])
     [("type", .str "integer")] "0" (.num 10)
     (by decide) (by decide) (by decide) (by decide)⟩

/-- C2 counterexample: a key present in the schema map but absent from
the validated JSON object is not silently skipped —
`json_dict[field]` raises `KeyError` before `_assert_schema` runs for
that field. -/
theorem C2_missing_key_not_skipped :
    validate_schema "draft04" (.obj [("x", .obj [("type", .str "integer")])])
      (.obj []) = .error (.keyError "x") := by decide

/-- C2 amended: `_validate_schema` applies `_assert_schema` once per
top-level key of the schema map, each of which must be present in the
JSON object — the whole validation succeeds exactly when every schema
key is present and its assertion passes; an absent key makes it fail
with a `KeyError` instead of being skipped. -/
theorem C2_per_key_validation (version : String)
    (kvs : List (String × Json)) (j : Json) :
    validate_schema version (.obj kvs) j = .ok ()
      ↔ ∀ p ∈ kvs, ∃ v, getKey j p.1 = some v
          ∧ assert_schema version p.2 v = .ok () := by
  simp only [validate_schema, objEntries]
  induction kvs with
  | nil => simp [validateSchemaGo]
  | cons p ps ih =>
    obtain ⟨k, sub⟩ := p
    simp only [validateSchemaGo, List.mem_cons]
    cases hg : getKey j k with
    | none =>
      simp only [hg]
      constructor
      · intro hcontra
        cases hcontra
      · intro hall
        obtain ⟨v, hv, _⟩ := hall (k, sub) (Or.inl rfl)
        rw [hg] at hv
        cases hv
    | some v =>
      simp only [hg]
      cases ha : assert_schema version sub v with
      | error e =>
        simp only [ha]
        constructor
        · intro hcontra
          cases hcontra
        · intro hall
          obtain ⟨w, hw, hass⟩ := hall (k, sub) (Or.inl rfl)
          rw [hg] at hw
          obtain rfl : v = w := by cases hw; rfl
          rw [ha] at hass
          cases hass
      | ok u =>
        cases u
        simp only [ha]
        rw [ih]
        constructor
        · intro hall q hq
          rcases hq with hq | hq
          · subst hq
            exact ⟨v, hg, ha⟩
          · exact hall q hq
        · intro hall q hq
          exact hall q (Or.inr hq)

/-- Witness for C2 amended: with the single schema key present in the
JSON and its assertion passing, validation succeeds. -/
theorem C2_per_key_validation_witness :
    validate_schema "draft04" (.obj [("x", .obj [("type", .str "integer")])])
      (.obj [("x", .num 7)]) = .ok () := by
  refine (C2_per_key_validation "draft04"
    [("x", .obj [("type", .str "integer")])] (.obj [("x", .num 7)])).mpr ?_
  intro p hp
  simp only [List.mem_singleton] at hp
  subst hp
  exact ⟨.num 7, by decide, by decide⟩

/-- C6 counterexample: the `null` and `boolean` keywords pop `skip`
and never consult the remaining named arguments, so an unrecognized
validation keyword such as `bogus` is silently ignored instead of
raising — the calls complete without any error. -/
theorem C6_null_ignores_unknown_keyword :
    nullKeywordCore "draft04" .null [("bogus", .bool true)] false = none
    ∧ booleanKeywordCore "draft04" (.bool true) none
        [("bogus", .bool true)] false = none := ⟨rfl, rfl⟩

theorem set_type_validations_bad (json_type : String) (kws : List String)
    (node : Json) (pre : List (String × Json)) (bad : String) (w : Json)
    (rest : List (String × Json))
    (hkws : kwsFor json_type "draft04" = some kws)
    (hpre : ∀ p ∈ pre, kws.contains p.1 = true)
    (hbad : kws.contains bad = false) :
    set_type_validations json_type "draft04" node (pre ++ (bad, w) :: rest)
      = (pre.foldl (fun n p => insertKey n p.1 (inputJson p.2)) node,
         some (.unknownKeyword bad)) := by
  have hsv := svLoop_append_bad json_type kws bad w rest pre node hpre hbad
  cases pre with
  | nil => simpa [set_type_validations, hkws] using hsv
  | cons q qs => simpa [set_type_validations, hkws] using hsv

/-- C6 amended: for the typed assertion keywords `integer`, `number`,
`string`, `object` and `array` — whose shared body is
`typedKeywordCore` — a named validation argument whose name is not in
the allowed-keyword table for the asserted type under `draft04` makes
the call fail with the unrecognized-keyword `RuntimeError` before any
validation of the resolved value, whatever the reality, the enum and
the skip flag; the `null` and `boolean` keywords, by contrast, ignore
their named arguments (see the counterexample). -/
theorem C6_typed_keywords_fail_fast (json_type : String) (kws : List String)
    (node reality : Json) (enum : List Json) (skip : Bool)
    (pre : List (String × Json)) (bad : String) (w : Json)
    (rest : List (String × Json))
    (hkws : kwsFor json_type "draft04" = some kws)
    (hpre : ∀ p ∈ pre, kws.contains p.1 = true)
    (hbad : kws.contains bad = false) :
    (typedKeywordCore json_type "draft04" node reality enum
        (pre ++ (bad, w) :: rest) skip).2
      = some (.fromValidations (.unknownKeyword bad)) := by
  have h := set_type_validations_bad json_type kws node pre bad w rest hkws hpre hbad
  unfold typedKeywordCore
  rw [h]

/-- Witness for C6 amended: `string` called with
`pattern="^a", bogus=true` against a non-string reality reports the
unknown keyword `bogus`, not a validation failure. -/
theorem C6_typed_keywords_fail_fast_witness :
    (typedKeywordCore "string" "draft04" (.obj []) (.num 5) []
        [("pattern", .str "^a"), ("bogus", .bool true)] false).2
      = some (.fromValidations (.unknownKeyword "bogus")) :=
  C6_typed_keywords_fail_fast "string"
    ["maxLength", "minLength", "pattern", "format"] (.obj []) (.num 5) [] false
    [("pattern", .str "^a")] "bogus" (.bool true) []
    (by decide) (by decide) (by decide)

/-- C10: rejecting an unknown validation keyword is not atomic with
respect to the schema node — the loop of `_set_type_validations`
writes each recognized keyword into the node before examining the
next, and `type` is only set after the loop, so when a later-iterated
name is unrecognized the earlier writes have already landed, `type` is
still untouched, and the node is not left unchanged; concretely, for
`string` with `pattern="^a", bogus=true`, the node already holds
`pattern` when the error fires and differs from its initial state. -/
theorem C10_partial_write_on_unknown_keyword :
    (∀ (kws : List String) (node : Json) (pre : List (String × Json))
       (bad : String) (w : Json) (rest : List (String × Json)),
       (∀ p ∈ pre, kws.contains p.1 = true) → kws.contains bad = false →
       "type" ∉ pre.map Prod.fst →
       svLoop "string" kws node (pre ++ (bad, w) :: rest)
         = (pre.foldl (fun n p => insertKey n p.1 (inputJson p.2)) node,
            some (.unknownKeyword bad))
       ∧ getKey (svLoop "string" kws node (pre ++ (bad, w) :: rest)).1 "type"
         = getKey node "type")
    ∧ set_type_validations "string" "draft04" (.obj [])
        [("pattern", .str "^a"), ("bogus", .bool true)]
        = (.obj [("pattern", .str "^a")], some (.unknownKeyword "bogus"))
    ∧ (Json.obj [("pattern", .str "^a")]) ≠ .obj [] := by
  refine ⟨?_, by decide, by decide⟩
  intro kws node pre bad w rest hpre hbad htype
  have h := svLoop_append_bad "string" kws bad w rest pre node hpre hbad
  refine ⟨h, ?_⟩
  rw [h]
  exact getKey_foldl_insert_ne "type" inputJson pre node htype

/-- Witness for C10: the concrete loop run with `pattern` recognized
and `bogus` not. -/
theorem C10_partial_write_witness :
    svLoop "string" ["maxLength", "minLength", "pattern", "format"] (.obj [])
        [("pattern", .str "^a"), ("bogus", .bool true)]
      = (.obj [("pattern", .str "^a")], some (.unknownKeyword "bogus")) := by
  have h := (C10_partial_write_on_unknown_keyword.1
    ["maxLength", "minLength", "pattern", "format"] (.obj [])
    [("pattern", .str "^a")] "bogus" (.bool true) []
    (by decide) (by decide) (by decide)).1
  exact h

theorem getKey_ite_insert (c : Prop) [Decidable c] (s : Json) (k k2 : String)
    (X : Json) (h : k2 ≠ k) :
    getKey (if c then insertKey s k X else s) k2 = getKey s k2 := by
  split
  · exact getKey_insert_ne s k k2 X h
  · rfl

theorem instantiate_fresh_exists (sess : Session) (req : Json) (raw : RawResponse)
    (b : Json)
    (hreq : getKey sess.schema "request" = some (.obj []))
    (hresp : getKey sess.schema "response" = some (.obj []))
    (hex : getKey sess.schema "exampled" = some (.bool false))
    (hspec : sess.spec = none)
    (hb : raw.jsonBody = some b) :
    ∃ i, instantiate sess req raw
        = .ok ({ sess with instances := sess.instances ++ [i] }, i)
      ∧ getKey (getD i "schema") "response" = some (.obj [("body", new_schema b)]) := by
  obtain ⟨skvs, hskvs⟩ := getKey_some_obj sess.schema "request" _ hreq
  have h1 : getD sess.schema "request" = Json.obj [] := by simp [getD, hreq]
  have h2 : getD sess.schema "response" = Json.obj [] := by simp [getD, hresp]
  have hbody : getKey (responseJson raw) "body" = some b := by
    simp [responseJson, getKey, lookupKey, hb]
  have hhasb : hasKey (responseJson raw) "body" = true := by
    simp [hasKey, hbody]
  have hgdb : getD (responseJson raw) "body" = b := by simp [getD, hbody]
  have hs1resp : getKey (insertKey sess.schema "response"
      (insertKey (Json.obj []) "body" (new_schema b))) "response"
      = some (.obj [("body", new_schema b)]) := by
    rw [hskvs]
    exact getKey_insert_self _ _ _
  have hs1ex : getKey (insertKey sess.schema "response"
      (insertKey (Json.obj []) "body" (new_schema b))) "exampled"
      = some (.bool false) := by
    rw [getKey_insert_ne _ _ _ _ (by decide)]
    exact hex
  unfold instantiate
  rw [hspec]
  simp only [specTruthy, Bool.false_and, Bool.false_eq_true, if_false,
    Bool.not_eq_true, h1, h2, truthy, List.isEmpty_nil, Bool.not_true,
    hhasb, if_true, hgdb]
  have hflag : exampledFlag
      (if hasKey req "query" = true then
        insertKey
          (if hasKey req "body" = true then
            insertKey (insertKey sess.schema "response"
                (insertKey (Json.obj []) "body" (new_schema b))) "request"
              (insertKey (getD (insertKey sess.schema "response"
                  (insertKey (Json.obj []) "body" (new_schema b))) "request") "body"
                (new_schema (getD req "body")))
          else insertKey sess.schema "response"
            (insertKey (Json.obj []) "body" (new_schema b))) "request"
          (insertKey (getD
            (if hasKey req "body" = true then
              insertKey (insertKey sess.schema "response"
                  (insertKey (Json.obj []) "body" (new_schema b))) "request"
                (insertKey (getD (insertKey sess.schema "response"
                  (insertKey (Json.obj []) "body" (new_schema b))) "request") "body"
                  (new_schema (getD req "body")))
            else insertKey sess.schema "response"
              (insertKey (Json.obj []) "body" (new_schema b))) "request") "query"
            (new_schema (getD req "query")))
      else
        (if hasKey req "body" = true then
          insertKey (insertKey sess.schema "response"
              (insertKey (Json.obj []) "body" (new_schema b))) "request"
            (insertKey (getD (insertKey sess.schema "response"
                (insertKey (Json.obj []) "body" (new_schema b))) "request") "body"
              (new_schema (getD req "body")))
        else insertKey sess.schema "response"
          (insertKey (Json.obj []) "body" (new_schema b)))) = false := by
    rw [exampledFlag, hasKey]
    rw [getKey_ite_insert _ _ _ _ _ (by decide),
      getKey_ite_insert _ _ _ _ _ (by decide), hs1ex]
    simp [getD, getKey_ite_insert _ _ _ _ _ (show "exampled" ≠ "request" by decide),
      hs1ex, truthy]
  rw [hflag]
  simp only [Bool.false_eq_true, if_false]
  refine ⟨_, rfl, ?_⟩
  rw [show ∀ (x : Json), getD (Json.obj [("request", req),
      ("response", responseJson raw), ("schema", x), ("spec", specJson none)])
      "schema" = x from fun x => by simp [getD, getKey, lookupKey]]
  rw [getKey_ite_insert _ _ _ _ _ (by decide),
    getKey_ite_insert _ _ _ _ _ (by decide)]
  exact hs1resp

/-- C1 counterexample: after two successful sequential calls with
bodies `{"a":1}` and `{"a":1,"b":2}`, the live session SchemaStore is
bit-for-bit the initial store — `_instantiate` deep-copies it and
mutates only the copy — so its `response` sub-map holds no `body`
schema at all: the live store does not accumulate the union of the
observed shapes. -/
theorem C1_live_store_not_union :
    instantiate cexSession cexRequest (cexRaw cexBody1) = .ok (cexSess1, cexInst1)
    ∧ instantiate cexSess1 cexRequest (cexRaw cexBody2) = .ok (cexSess2, cexInst2)
    ∧ cexSess2.schema = cexSession.schema
    ∧ getKey (getD cexSess2.schema "response") "body" = none := ⟨rfl, rfl, rfl, rfl⟩

/-- C1 amended: recording is per-call and non-accumulating — starting
from a session whose schema maps are empty, with example-embedding off
and no expected spec, each of two sequential calls appends an instance
whose snapshot's `response` map holds exactly the schema freshly
inferred from that call's own body; the first instance sits unchanged
in the history after the second call; and the live SchemaStore is not
mutated by recording at all (it is deep-copied per call), so it never
accumulates the observed shapes. -/
theorem C1_snapshots_per_call (sess : Session) (req1 req2 : Json)
    (raw1 raw2 : RawResponse) (b1 b2 : Json)
    (hreq : getKey sess.schema "request" = some (.obj []))
    (hresp : getKey sess.schema "response" = some (.obj []))
    (hex : getKey sess.schema "exampled" = some (.bool false))
    (hspec : sess.spec = none)
    (hb1 : raw1.jsonBody = some b1) (hb2 : raw2.jsonBody = some b2) :
    instantiate sess req1 raw1
      = .ok ({ sess with instances :=
                sess.instances ++ [recordedInstance sess req1 raw1] },
             recordedInstance sess req1 raw1)
    ∧ getKey (getD (recordedInstance sess req1 raw1) "schema") "response"
        = some (.obj [("body", new_schema b1)])
    ∧ (instantiate { sess with instances :=
          sess.instances ++ [recordedInstance sess req1 raw1] } req2 raw2).map
          (fun r => r.1.instances)
        = .ok (sess.instances ++ [recordedInstance sess req1 raw1,
            recordedInstance { sess with instances :=
              sess.instances ++ [recordedInstance sess req1 raw1] } req2 raw2])
    ∧ (instantiate { sess with instances :=
          sess.instances ++ [recordedInstance sess req1 raw1] } req2 raw2).map
          (fun r => r.1.schema) = .ok sess.schema
    ∧ getKey (getD (recordedInstance { sess with instances :=
          sess.instances ++ [recordedInstance sess req1 raw1] } req2 raw2)
        "schema") "response" = some (.obj [("body", new_schema b2)]) := by
  obtain ⟨i1, e1, s1⟩ := instantiate_fresh_exists sess req1 raw1 b1
    hreq hresp hex hspec hb1
  have hi1 : recordedInstance sess req1 raw1 = i1 := by
    rw [recordedInstance, e1]
    rfl
  obtain ⟨i2, e2, s2⟩ := instantiate_fresh_exists
    { sess with instances := sess.instances ++ [i1] } req2 raw2 b2
    hreq hresp hex hspec hb2
  have hi2 : recordedInstance
      { sess with instances := sess.instances ++ [i1] } req2 raw2 = i2 := by
    rw [recordedInstance, e2]
    rfl
  rw [hi1]
  refine ⟨e1, s1, ?_, ?_, ?_⟩
  · rw [e2, hi2]
    simp only [Except.map, List.append_assoc, List.cons_append, List.nil_append]
  · rw [e2]
    rfl
  · rw [hi2]
    exact s2

/-- Witness for C1 amended at the concrete two-call scenario. -/
theorem C1_snapshots_per_call_witness :
    instantiate cexSession cexRequest (cexRaw cexBody1)
      = .ok ({ cexSession with instances :=
                cexSession.instances ++ [recordedInstance cexSession cexRequest (cexRaw cexBody1)] },
             recordedInstance cexSession cexRequest (cexRaw cexBody1))
    ∧ getKey (getD (recordedInstance cexSession cexRequest (cexRaw cexBody1))
        "schema") "response"
        = some (.obj [("body", new_schema cexBody1)]) := by
  have h := C1_snapshots_per_call cexSession cexRequest cexRequest
    (cexRaw cexBody1) (cexRaw cexBody2) cexBody1 cexBody2
    (by decide) (by decide) (by decide) rfl rfl rfl
  exact ⟨h.1, h.2.1⟩

/-- C5 counterexample: a later assertion keyword does modify the last
appended instance — resolving the path `response body 0` with the
`missing` keyword returns `10` but also writes a synthesized node
under the key `"0"` into the `items` schema of the last instance's
snapshot (`_schema_by_key` mutates the snapshot in place), so the last
instance after the call differs from the instance as appended. -/
theorem C5_last_instance_mutated :
    cexFound.1 = .ok (.num 10)
    ∧ getKey (getD (getD (getD (getD cexInstArr "schema") "response") "body")
        "items") "0" = none
    ∧ getKey (getD (getD (getD (getD cexInstArr2 "schema") "response") "body")
        "items") "0" = some (new_schema (.num 10))
    ∧ getD (getD (getD (getD cexInstArr2 "schema") "response") "body") "items"
        ≠ getD (getD (getD (getD cexInstArr "schema") "response") "body") "items" := by
  refine ⟨rfl, rfl, rfl, by decide⟩

/-- C5 amended: prior instances are indeed never modified —
`_find_by_field` (the entry point of every assertion keyword) leaves
the session schema, the expected spec and every instance but the last
untouched, and its only mutation is replacing the `schema` member of
the last instance with the walked snapshot; the last instance itself,
however, is writable until the next call (see the counterexample). -/
theorem C5_only_last_schema_changes (sess : Session) (field : String)
    (also_schema : Bool) (inst s0 : Json)
    (hlast : sess.instances.getLast? = some inst)
    (hschema : getKey inst "schema" = some s0) :
    (find_by_field sess field also_schema).2.schema = sess.schema
    ∧ (find_by_field sess field also_schema).2.spec = sess.spec
    ∧ (find_by_field sess field also_schema).2.instances
        = sess.instances.dropLast
          ++ [insertKey inst "schema"
               (findWalk also_schema (exampledFlag s0) (splitField field) inst s0).2]
    ∧ ∀ n, n + 1 < sess.instances.length →
        (find_by_field sess field also_schema).2.instances[n]?
          = sess.instances[n]? := by
  have key : find_by_field sess field also_schema
      = ((findWalk also_schema (exampledFlag s0) (splitField field) inst s0).1,
         { sess with instances := sess.instances.dropLast
             ++ [insertKey inst "schema"
                  (findWalk also_schema (exampledFlag s0) (splitField field) inst s0).2] }) := by
    unfold find_by_field
    rw [hlast]
    simp only [hschema]
  rw [key]
  refine ⟨rfl, rfl, rfl, ?_⟩
  intro n hn
  have hn2 : n < sess.instances.dropLast.length := by
    rw [List.length_dropLast]
    omega
  rw [List.getElem?_append]
  rw [if_pos hn2]
  rw [List.dropLast_eq_take, List.getElem?_take]
  rw [if_pos (by rw [List.length_dropLast] at hn2; omega)]

/-- Witness for C5 amended at the concrete array-body session. -/
theorem C5_only_last_schema_changes_witness :
    cexSessArr2.schema = cexSessArr.schema
    ∧ cexSessArr2.spec = cexSessArr.spec
    ∧ cexSessArr2.instances
        = cexSessArr.instances.dropLast
          ++ [insertKey cexInstArr "schema"
               (findWalk true (exampledFlag (getD cexInstArr "schema"))
                 (splitField "response body 0") cexInstArr
                 (getD cexInstArr "schema")).2] := by
  have h := C5_only_last_schema_changes cexSessArr "response body 0" true
    cexInstArr (getD cexInstArr "schema") rfl rfl
  exact ⟨h.1, h.2.1, h.2.2.1⟩

theorem getKey_eq_some_of_hasKey (j : Json) (k : String) (h : hasKey j k = true) :
    getKey j k = some (getD j k) := by
  rw [getD]
  cases hg : getKey j k with
  | none => rw [hasKey, hg] at h; cases h
  | some v => rfl

theorem insertKey_nonObj (j : Json) (h : ∀ kvs, j ≠ Json.obj kvs) (k : String)
    (v : Json) : insertKey j k v = j := by
  cases j
  case obj kvs => exact absurd rfl (h kvs)
  all_goals rfl

theorem hasKey_nonObj (j : Json) (h : ∀ kvs, j ≠ Json.obj kvs) (k : String) :
    hasKey j k = false := by
  cases j
  case obj kvs => exact absurd rfl (h kvs)
  all_goals rfl

theorem stampExample_false (c : Json) (k : String) (v : Json) :
    stampExample c k v false = c := rfl

theorem key_ne_of_hasKey (s : Json) (key k2 : String)
    (hA : hasKey s key = false) (hB : hasKey s k2 = true) : key ≠ k2 := by
  intro he
  rw [he, hB] at hA
  cases hA

theorem hasKey_setEntry_self (kvs : List (String × Json)) (k : String) (v : Json) :
    hasKey (Json.obj (setEntry kvs k v)) k = true := by
  simp [hasKey, getKey, lookup_set_self]

theorem getD_setEntry_self (kvs : List (String × Json)) (k : String) (v : Json) :
    getD (Json.obj (setEntry kvs k v)) k = v := by
  simp [getD, getKey, lookup_set_self]

theorem step_idem (s : Json) (key : String) (v2 child2 : Json) :
    (∃ loc2,
      schema_by_key (putChild (schema_by_key s key v2 false).1
          (schema_by_key s key v2 false).2.2 key child2) key v2 false
        = (putChild (schema_by_key s key v2 false).1
            (schema_by_key s key v2 false).2.2 key child2, child2, loc2)
      ∧ putChild (putChild (schema_by_key s key v2 false).1
            (schema_by_key s key v2 false).2.2 key child2) loc2 key child2
        = putChild (schema_by_key s key v2 false).1
            (schema_by_key s key v2 false).2.2 key child2)
    ∨ putChild (schema_by_key s key v2 false).1
        (schema_by_key s key v2 false).2.2 key child2 = s := by
  by_cases hA : hasKey s key = true
  · obtain ⟨kvs, rfl⟩ := hasKey_obj s key hA
    rw [schema_by_key_direct _ key v2 false hA]
    simp only [putChild]
    left
    refine ⟨.direct, ?_, ?_⟩
    · rw [schema_by_key_direct _ key v2 false (hasKey_insert_self kvs key child2),
        getD_insert_self]
    · simp only [putChild, insert_insert]
  · have hA2 : hasKey s key = false := by
      cases h : hasKey s key
      · rfl
      · exact absurd h hA
    by_cases hB : hasKey s "properties" = true
    · obtain ⟨kvs, rfl⟩ := hasKey_obj s "properties" hB
      have hkp : key ≠ "properties" := key_ne_of_hasKey _ key "properties" hA2 hB
      rw [schema_by_key_unwrapProps _ key v2 false hA2 hB]
      simp only [stampExample_false]
      by_cases hPo : ∃ pk, getD (Json.obj kvs) "properties" = Json.obj pk
      · obtain ⟨pk, hpk⟩ := hPo
        rw [hpk]
        obtain ⟨ck, hck⟩ : ∃ ck,
            (if hasKey (Json.obj pk) key = true then Json.obj pk
             else insertKey (Json.obj pk) key (new_schema v2)) = Json.obj ck := by
          split
          · exact ⟨pk, rfl⟩
          · exact ⟨setEntry pk key (new_schema v2), rfl⟩
        rw [hck]
        simp only [putChild, getD_insert_self, insert_insert]
        rw [show insertKey (Json.obj ck) key child2
            = Json.obj (setEntry ck key child2) from rfl]
        left
        have f1 : hasKey (insertKey (Json.obj kvs) "properties"
            (Json.obj (setEntry ck key child2))) key = false := by
          rw [hasKey, getKey_insert_ne _ _ _ _ hkp]
          exact hA2
        have f2 : hasKey (insertKey (Json.obj kvs) "properties"
            (Json.obj (setEntry ck key child2))) "properties" = true :=
          hasKey_insert_self _ _ _
        refine ⟨.inProps, ?_, ?_⟩
        · rw [schema_by_key_unwrapProps _ key v2 false f1 f2]
          simp only [stampExample_false, getD_insert_self]
          rw [if_pos (hasKey_setEntry_self ck key child2)]
          rw [insert_insert]
          rw [getD_setEntry_self ck key child2]
        · simp only [putChild, getD_insert_self]
      · have hnp : ∀ pk, getD (Json.obj kvs) "properties" ≠ Json.obj pk :=
          fun pk h => hPo ⟨pk, h⟩
        right
        rw [if_neg (show ¬hasKey (getD (Json.obj kvs) "properties") key = true by
          rw [hasKey_nonObj _ hnp key]; simp)]
        rw [insertKey_nonObj _ hnp key (new_schema v2)]
        rw [insert_getKey_self _ _ _ (getKey_eq_some_of_hasKey _ _ hB)]
        simp only [putChild]
        rw [insertKey_nonObj _ hnp key child2]
        exact insert_getKey_self _ _ _ (getKey_eq_some_of_hasKey _ _ hB)
    · have hB2 : hasKey s "properties" = false := by
        cases h : hasKey s "properties"
        · rfl
        · exact absurd h hB
      by_cases hC : hasKey s "items" = true
      · obtain ⟨kvs, rfl⟩ := hasKey_obj s "items" hC
        have hki : key ≠ "items" := key_ne_of_hasKey _ key "items" hA2 hC
        rw [schema_by_key_unwrapItems _ key v2 false hA2 hB2 hC]
        simp only [stampExample_false]
        by_cases hPo : ∃ pk, getD (Json.obj kvs) "items" = Json.obj pk
        · obtain ⟨pk, hpk⟩ := hPo
          rw [hpk]
          obtain ⟨ck, hck⟩ : ∃ ck,
              (if hasKey (Json.obj pk) key = true then Json.obj pk
               else insertKey (Json.obj pk) key (new_schema v2)) = Json.obj ck := by
            split
            · exact ⟨pk, rfl⟩
            · exact ⟨setEntry pk key (new_schema v2), rfl⟩
          rw [hck]
          simp only [putChild, getD_insert_self, insert_insert]
          rw [show insertKey (Json.obj ck) key child2
              = Json.obj (setEntry ck key child2) from rfl]
          left
          have f1 : hasKey (insertKey (Json.obj kvs) "items"
              (Json.obj (setEntry ck key child2))) key = false := by
            rw [hasKey, getKey_insert_ne _ _ _ _ hki]
            exact hA2
          have f1p : hasKey (insertKey (Json.obj kvs) "items"
              (Json.obj (setEntry ck key child2))) "properties" = false := by
            rw [hasKey, getKey_insert_ne _ _ _ _ (by decide)]
            exact hB2
          have f2 : hasKey (insertKey (Json.obj kvs) "items"
              (Json.obj (setEntry ck key child2))) "items" = true :=
            hasKey_insert_self _ _ _
          refine ⟨.inItems, ?_, ?_⟩
          · rw [schema_by_key_unwrapItems _ key v2 false f1 f1p f2]
            simp only [stampExample_false, getD_insert_self]
            rw [if_pos (hasKey_setEntry_self ck key child2)]
            rw [insert_insert]
            rw [getD_setEntry_self ck key child2]
          · simp only [putChild, getD_insert_self]
        · have hnp : ∀ pk, getD (Json.obj kvs) "items" ≠ Json.obj pk :=
            fun pk h => hPo ⟨pk, h⟩
          right
          rw [if_neg (show ¬hasKey (getD (Json.obj kvs) "items") key = true by
            rw [hasKey_nonObj _ hnp key]; simp)]
          rw [insertKey_nonObj _ hnp key (new_schema v2)]
          rw [insert_getKey_self _ _ _ (getKey_eq_some_of_hasKey _ _ hC)]
          simp only [putChild]
          rw [insertKey_nonObj _ hnp key child2]
          exact insert_getKey_self _ _ _ (getKey_eq_some_of_hasKey _ _ hC)
      · have hC2 : hasKey s "items" = false := by
          cases h : hasKey s "items"
          · rfl
          · exact absurd h hC
        rw [schema_by_key_bare s key v2 false hA2 hB2 hC2]
        simp only [stampExample_false, putChild]
        by_cases hSo : ∃ kvs, s = Json.obj kvs
        · obtain ⟨kvs, rfl⟩ := hSo
          rw [show insertKey (Json.obj kvs) key (new_schema v2)
              = Json.obj (setEntry kvs key (new_schema v2)) from rfl]
          rw [show insertKey (Json.obj (setEntry kvs key (new_schema v2))) key child2
              = Json.obj (setEntry (setEntry kvs key (new_schema v2)) key child2) from rfl]
          rw [set_set]
          left
          refine ⟨.direct, ?_, ?_⟩
          · rw [schema_by_key_direct _ key v2 false (hasKey_setEntry_self kvs key child2),
              getD_setEntry_self]
          · simp only [putChild]
            rw [show insertKey (Json.obj (setEntry kvs key child2)) key child2
                = Json.obj (setEntry (setEntry kvs key child2) key child2) from rfl]
            rw [set_set]
        · have hns : ∀ kvs, s ≠ Json.obj kvs := fun kvs h => hSo ⟨kvs, h⟩
          right
          rw [insertKey_nonObj _ hns key (new_schema v2)]
          exact insertKey_nonObj _ hns key child2

theorem findWalk_idem : ∀ (keys : List String) (v s r s1 : Json),
    findWalk true false keys v s = (.ok r, s1) →
    findWalk true false keys v s1 = (.ok r, s1)
  | [], v, s, r, s1, h => by
      simp only [findWalk] at h ⊢
      rw [Prod.mk.injEq] at h
      obtain ⟨h1, h2⟩ := h
      rw [h1]
  | key :: rest, v, s, r, s1, h => by
      simp only [findWalk] at h ⊢
      cases hv : value_by_key v key with
      | error e =>
        rw [hv] at h
        cases e
        all_goals exact Except.noConfusion (congrArg Prod.fst h)
      | ok v2 =>
        rw [hv] at h
        have h2 : ((findWalk true false rest v2 (schema_by_key s key v2 false).2.1).1,
            putChild (schema_by_key s key v2 false).1
              (schema_by_key s key v2 false).2.2 key
              (findWalk true false rest v2 (schema_by_key s key v2 false).2.1).2)
            = ((Except.ok r : Except FErr Json), s1) := h
        rw [Prod.mk.injEq] at h2
        obtain ⟨hr, hs1⟩ := h2
        show ((findWalk true false rest v2 (schema_by_key s1 key v2 false).2.1).1,
            putChild (schema_by_key s1 key v2 false).1
              (schema_by_key s1 key v2 false).2.2 key
              (findWalk true false rest v2 (schema_by_key s1 key v2 false).2.1).2)
            = (Except.ok r, s1)
        have hrec : findWalk true false rest v2 (schema_by_key s key v2 false).2.1
            = (.ok r, (findWalk true false rest v2 (schema_by_key s key v2 false).2.1).2) := by
          rw [← hr]
        rcases step_idem s key v2
            (findWalk true false rest v2 (schema_by_key s key v2 false).2.1).2 with
          ⟨loc2, hsk2, hput2⟩ | hss
        · have hidem := findWalk_idem rest v2 _ r _ hrec
          rw [← hs1, hsk2]
          simp only [hidem, hput2]
        · rw [← hs1, hss]
          rw [Prod.mk.injEq]
          first
          | exact ⟨hr, rfl⟩
          | exact ⟨hr, hss⟩

theorem findWalk_track_false_schema : ∀ (ex : Bool) (keys : List String)
    (v s : Json), (findWalk false ex keys v s).2 = s
  | _, [], _, _ => rfl
  | ex, key :: rest, v, s => by
      simp only [findWalk]
      cases hv : value_by_key v key with
      | error e => cases e <;> rfl
      | ok v2 =>
        simp only [Bool.false_eq_true, if_false]
        exact findWalk_track_false_schema ex rest v2 s

theorem getKey_putChild_ne (s : Json) (loc : Loc) (key : String) (c : Json)
    (k2 : String) (h1 : k2 ≠ key) (h2 : k2 ≠ "properties") (h3 : k2 ≠ "items") :
    getKey (putChild s loc key c) k2 = getKey s k2 := by
  cases loc
  · exact getKey_insert_ne _ _ _ _ h1
  · exact getKey_insert_ne _ _ _ _ h2
  · exact getKey_insert_ne _ _ _ _ h3

theorem getKey_schema_by_key_fst_ne (s : Json) (key : String) (v : Json)
    (ex : Bool) (k2 : String)
    (h1 : k2 ≠ key) (h2 : k2 ≠ "properties") (h3 : k2 ≠ "items") :
    getKey (schema_by_key s key v ex).1 k2 = getKey s k2 := by
  unfold schema_by_key
  split
  · rfl
  · split
    · exact getKey_insert_ne _ _ _ _ h2
    · split
      · exact getKey_insert_ne _ _ _ _ h3
      · unfold stampExample
        split
        · rw [getKey_insert_ne _ _ _ _ h1]
          exact getKey_insert_ne _ _ _ _ h1
        · exact getKey_insert_ne _ _ _ _ h1

theorem findWalk_root_getKey (track ex : Bool) (key : String) (rest : List String)
    (v s : Json) (k2 : String)
    (h1 : k2 ≠ key) (h2 : k2 ≠ "properties") (h3 : k2 ≠ "items") :
    getKey (findWalk track ex (key :: rest) v s).2 k2 = getKey s k2 := by
  simp only [findWalk]
  cases hv : value_by_key v key with
  | error e => cases e <;> rfl
  | ok v2 =>
    cases track
    · simp only [Bool.false_eq_true, if_false]
      rw [findWalk_track_false_schema ex rest v2 s]
    · simp only [if_true]
      rw [getKey_putChild_ne _ _ _ _ _ h1 h2 h3]
      exact getKey_schema_by_key_fst_ne s key v2 ex k2 h1 h2 h3

theorem value_by_key_insert_ne (kvs : List (String × Json)) (kset key : String)
    (x : Json) (h : key ≠ kset) :
    value_by_key (insertKey (Json.obj kvs) kset x) key
      = value_by_key (Json.obj kvs) key := by
  simp only [value_by_key]
  cases pyInt? key with
  | some i => rfl
  | none =>
    simp only [insertKey]
    rw [lookup_set_ne _ _ _ _ h]

theorem findWalk_first_value (track ex : Bool) (key : String) (rest : List String)
    (v vb s : Json) (h : value_by_key v key = value_by_key vb key) :
    findWalk track ex (key :: rest) v s = findWalk track ex (key :: rest) vb s := by
  simp only [findWalk, h]

/-- C9: schema extension during path resolution is create-once and
idempotent — once a resolution of a field against the last instance
has succeeded (with example-embedding off and a path that does not
start inside the `schema` member itself, where the value walk would
read the very tree the schema walk writes), resolving the same field
again returns the same reality and leaves the session untouched: no
schema node is recreated, duplicated or replaced. -/
theorem C9_resolution_idempotent (sess sess1 : Session) (field : String)
    (inst s0 r : Json) (k0 : String) (krest : List String)
    (hlast : sess.instances.getLast? = some inst)
    (hschema : getKey inst "schema" = some s0)
    (hex : exampledFlag s0 = false)
    (hkeys : splitField field = k0 :: krest)
    (hk0s : k0 ≠ "schema") (hk0e : k0 ≠ "exampled")
    (hfirst : find_by_field sess field true = (.ok r, sess1)) :
    find_by_field sess1 field true = (.ok r, sess1) := by
  obtain ⟨ikvs, rfl⟩ := getKey_some_obj inst "schema" s0 hschema
  have key1 : find_by_field sess field true
      = ((findWalk true false (k0 :: krest) (Json.obj ikvs) s0).1,
         { sess with instances := sess.instances.dropLast
             ++ [insertKey (Json.obj ikvs) "schema"
                  (findWalk true false (k0 :: krest) (Json.obj ikvs) s0).2] }) := by
    unfold find_by_field
    rw [hlast]
    simp only [hschema, hex, hkeys]
  rw [key1] at hfirst
  rw [Prod.mk.injEq] at hfirst
  obtain ⟨hr, hs⟩ := hfirst
  have hWW : findWalk true false (k0 :: krest) (Json.obj ikvs) s0
      = (.ok r, (findWalk true false (k0 :: krest) (Json.obj ikvs) s0).2) := by
    rw [← hr]
  have hIdem := findWalk_idem (k0 :: krest) (Json.obj ikvs) s0 r _ hWW
  have hpres : getKey (findWalk true false (k0 :: krest) (Json.obj ikvs) s0).2
      "exampled" = getKey s0 "exampled" :=
    findWalk_root_getKey true false k0 krest (Json.obj ikvs) s0 "exampled"
      (Ne.symm hk0e) (by decide) (by decide)
  have hflag2 : exampledFlag
      (findWalk true false (k0 :: krest) (Json.obj ikvs) s0).2 = false := by
    rw [exampledFlag, hasKey, getD, hpres]
    rw [exampledFlag, hasKey, getD] at hex
    exact hex
  have hvbk : value_by_key (insertKey (Json.obj ikvs) "schema"
        (findWalk true false (k0 :: krest) (Json.obj ikvs) s0).2) k0
      = value_by_key (Json.obj ikvs) k0 :=
    value_by_key_insert_ne ikvs "schema" k0 _ hk0s
  have hwalk2 : findWalk true false (k0 :: krest)
      (insertKey (Json.obj ikvs) "schema"
        (findWalk true false (k0 :: krest) (Json.obj ikvs) s0).2)
      (findWalk true false (k0 :: krest) (Json.obj ikvs) s0).2
      = (.ok r, (findWalk true false (k0 :: krest) (Json.obj ikvs) s0).2) := by
    rw [findWalk_first_value true false k0 krest _ (Json.obj ikvs) _ hvbk]
    exact hIdem
  subst hs
  unfold find_by_field
  simp only [List.getLast?_concat, getKey_insert_self, hflag2, hkeys, hwalk2,
    insert_insert, List.dropLast_concat]

/-- Witness for C9 at the concrete array-body session: re-resolving
`response body 0` against the already-walked session returns `10`
again and changes nothing. -/
theorem C9_resolution_idempotent_witness :
    find_by_field cexSessArr2 "response body 0" true
      = (.ok (.num 10), cexSessArr2) :=
  C9_resolution_idempotent cexSessArr cexSessArr2 "response body 0" cexInstArr
    (getD cexInstArr "schema") (.num 10) "response" ["body", "0"]
    rfl rfl (by decide) (by decide) (by decide) (by decide) (Prod.ext rfl rfl)
